import Mathlib

/-!
Shallow embedding of the testcase-manager repository (a local-first
test-case tracking tool: an IndexedDB-backed store of TestCase records,
a form controller, a JSON import/export controller and an in-memory
filter layer), together with proofs about the claims of its
specification.

Sources embedded:
  src/types.ts                    — the TestCase record model
  src/services/db.ts              — the persistence store (IndexedDB wrapper)
  src/components/JsonManager.tsx  — handleImport (JSON import controller)
  src/components/TestForm.tsx     — handleSubmit (form controller)
  src/App.tsx                     — listFilteredCases (filter layer)

Modelling conventions: the IndexedDB object store keyed by `id` is a list
of records with pairwise distinct ids (stated as a hypothesis where it
matters); `db.put` is upsert by `id`; timestamps are epoch milliseconds as
naturals; JavaScript values that the import controller branches on are an
explicit `JSValue` type; an absent object property is `Option.none`.
-/

/-- The TestStatus enum of src/types.ts. -/
inductive TestStatus where
  | DRAFT
  | PASSING
  | FAILING
  | SKIPPED
deriving DecidableEq, Repr

/-- The string value of each enum member, as in `TestStatus.DRAFT = 'DRAFT'`. -/
def statusToString : TestStatus → String
  | .DRAFT => "DRAFT"
  | .PASSING => "PASSING"
  | .FAILING => "FAILING"
  | .SKIPPED => "SKIPPED"

/-- The TestCase record of src/types.ts. `failureReason` and `iteration` are
`Option` because at runtime the import controller builds records without
these properties (an absent JavaScript property is `none`; `App.tsx` and
`TestForm.tsx` read them with `|| `-defaults accordingly). -/
structure TestCase where
  id : String
  title : String
  description : String
  input : String
  expectedOutput : String
  status : TestStatus
  failureReason : Option String
  tags : List String
  iteration : Option String
  createdAt : Nat
  updatedAt : Nat
deriving DecidableEq, Repr

/-- A JSON value as JavaScript holds it after `JSON.parse` (functions and
`undefined` cannot occur in parsed JSON; numbers are modelled as integers,
the only numbers the claims involve). -/
inductive JSValue where
  | jnull
  | jbool (b : Bool)
  | jnum (n : Int)
  | jstr (s : String)
  | jarr (elems : List JSValue)
  | jobj (fields : List (String × JSValue))
deriving Repr

/-- One hexadecimal digit, for JSON string control-character escapes. -/
def hexDigit (n : Nat) : String :=
  match n with
  | 0 => "0" | 1 => "1" | 2 => "2" | 3 => "3" | 4 => "4"
  | 5 => "5" | 6 => "6" | 7 => "7" | 8 => "8" | 9 => "9"
  | 10 => "a" | 11 => "b" | 12 => "c" | 13 => "d" | 14 => "e"
  | _ => "f"

/-- JSON escaping of one character, as `JSON.stringify` performs it. -/
def escJsonChar (c : Char) : String :=
  if c = '"' then "\\\""
  else if c = '\\' then "\\\\"
  else if c = '\n' then "\\n"
  else if c = '\r' then "\\r"
  else if c = '\t' then "\\t"
  else if c.toNat = 8 then "\\b"
  else if c.toNat = 12 then "\\f"
  else if c.toNat < 32 then "\\u00" ++ hexDigit (c.toNat / 16) ++ hexDigit (c.toNat % 16)
  else String.singleton c

/-- A JSON string literal for `s`, as `JSON.stringify` prints it. -/
def quoteJson (s : String) : String :=
  "\"" ++ String.join (s.toList.map escJsonChar) ++ "\""

/-- Two spaces of indentation per depth level: the gap of
`JSON.stringify(v, null, 2)`. -/
def indentStr (depth : Nat) : String :=
  String.join (List.replicate depth "  ")

mutual

/-- The text `JSON.stringify(v, null, 2)` produces when the printer is
already `depth` levels deep. -/
def jsonText (depth : Nat) : JSValue → String
  | .jnull => "null"
  | .jbool b => if b then "true" else "false"
  | .jnum n => toString n
  | .jstr s => quoteJson s
  | .jarr [] => "[]"
  | .jarr (x :: xs) =>
      "[\n" ++ jsonItems (depth + 1) x xs ++ "\n" ++ indentStr depth ++ "]"
  | .jobj [] => "\x7b\x7d"
  | .jobj ((k, v) :: fs) =>
      "\x7b\n" ++ jsonFields (depth + 1) k v fs ++ "\n" ++ indentStr depth ++ "\x7d"
termination_by v => sizeOf v

/-- The comma-separated, indented element lines of a non-empty array. -/
def jsonItems (depth : Nat) (x : JSValue) : List JSValue → String
  | [] => indentStr depth ++ jsonText depth x
  | y :: ys => indentStr depth ++ jsonText depth x ++ ",\n" ++ jsonItems depth y ys
termination_by xs => 1 + sizeOf x + sizeOf xs

/-- The comma-separated, indented `"key": value` lines of a non-empty object. -/
def jsonFields (depth : Nat) (k : String) (v : JSValue) :
    List (String × JSValue) → String
  | [] => indentStr depth ++ quoteJson k ++ ": " ++ jsonText depth v
  | (k2, v2) :: gs =>
      indentStr depth ++ quoteJson k ++ ": " ++ jsonText depth v ++ ",\n" ++
        jsonFields depth k2 v2 gs
termination_by fs => 1 + sizeOf v + sizeOf fs

end

/-- Whether `typeof v === 'object'` in JavaScript: true for null, arrays and
plain objects, false for strings, numbers and booleans. -/
def typeofIsObject : JSValue → Bool
  | .jnull => true
  | .jarr _ => true
  | .jobj _ => true
  | _ => false

/-- JavaScript truthiness of a JSON value. -/
def jsTruthy : JSValue → Bool
  | .jnull => false
  | .jbool b => b
  | .jnum n => n != 0
  | .jstr s => s != ""
  | .jarr _ => true
  | .jobj _ => true

/-- The stored text for the `input` and `expectedOutput` fields, from
`typeof item.input === 'object' ? JSON.stringify(item.input, null, 2)
: (item.input || '')` in handleImport (src/components/JsonManager.tsx).
An absent property (`none`) is undefined, hence falsy, hence the empty
string. A truthy number or boolean is kept unconverted by the JavaScript
code; we store its text form, which is what every string observation of
the record yields. -/
def coerceText : Option JSValue → String
  | none => ""
  | some v =>
      if typeofIsObject v then jsonText 0 v
      else
        match v with
        | .jstr s => s
        | .jnum n => if n = 0 then "" else toString n
        | .jbool b => if b then "true" else ""
        | _ => ""

/-- The `tags` property of an import item as the code observes it:
absent, present but failing `Array.isArray`, or an array (the claims only
involve string elements, matching the declared `tags: string[]` type). -/
inductive TagsField where
  | absent
  | notAnArray
  | array (elems : List String)
deriving DecidableEq, Repr

/-- The element list `Array.isArray(item.tags) ? item.tags : []`. -/
def rawTags : TagsField → List String
  | .array es => es
  | _ => []

/-- One parsed JSON import item, holding exactly the properties that
handleImport reads; `none` is an absent property. Per the record model of
src/types.ts, `id`, `title`, `description` and `status` are strings and
`createdAt` a number when present; `input` and `expectedOutput` keep their
full JSON value because the code branches on `typeof`, and `tags` keeps an
is-array marker because the code branches on `Array.isArray`. A non-string
`status` value behaves exactly like an unrecognized string (the enum
membership test fails), so `Option String` loses no behaviour. -/
structure RawItem where
  id : Option String
  title : Option String
  description : Option String
  input : Option JSValue
  expectedOutput : Option JSValue
  status : Option String
  tags : TagsField
  createdAt : Option Nat
deriving Repr

/-- Truthiness of an optional string property (`!item.title`): present and
non-empty. -/
def strTruthy : Option String → Bool
  | none => false
  | some s => s != ""

/-- The status normalization `Object.values(TestStatus).includes(item.status)
? item.status : TestStatus.DRAFT`. -/
def statusFrom : Option String → TestStatus
  | some s =>
      if s = "DRAFT" then .DRAFT
      else if s = "PASSING" then .PASSING
      else if s = "FAILING" then .FAILING
      else if s = "SKIPPED" then .SKIPPED
      else .DRAFT
  | none => .DRAFT

/-- First-occurrence de-duplication with an accumulator of already seen
elements: the order-preserving behaviour of `Array.from(new Set(l))`. -/
def setDedupAux (seen : List String) : List String → List String
  | [] => []
  | x :: xs =>
      if x ∈ seen then setDedupAux seen xs
      else x :: setDedupAux (x :: seen) xs

/-- The de-duplication `Array.from(new Set(l))`: keeps the first occurrence
of each element, in order. -/
def setDedup (l : List String) : List String :=
  setDedupAux [] l

/-- Splitting a character list at every comma, the behaviour of
`String.prototype.split(',')` (splitting the empty string gives one empty
piece). -/
def splitCommaChars : List Char → List (List Char)
  | [] => [[]]
  | c :: cs =>
      if c = ',' then [] :: splitCommaChars cs
      else
        match splitCommaChars cs with
        | [] => [[c]]
        | g :: gs => (c :: g) :: gs

/-- The whitespace trimming `String.prototype.trim()`: drop whitespace from
both ends. -/
def strTrim (s : String) : String :=
  String.mk ((((s.toList.dropWhile Char.isWhitespace).reverse).dropWhile
    Char.isWhitespace).reverse)

/-- The global-tag preprocessing `globalTags.split(',').map(t => t.trim())
.filter(Boolean)` of handleImport. -/
def parseGlobalTags (s : String) : List String :=
  (((splitCommaChars s.toList).map (fun g => strTrim (String.mk g))).filter
    (fun t => t != ""))

/-- The error message thrown by handleImport for a missing title. -/
def missingTitleMsg : String :=
  "A test case is missing a 'title' field."

/-- The per-item validation and transformation in the `array.map` body of
handleImport (src/components/JsonManager.tsx, lines 52-69): reject a falsy
title, normalize tags against the global tags, default the remaining
fields, honor a truthy supplied `createdAt`, stamp `updatedAt` with the
current time. `uuid` stands for the `crypto.randomUUID()` result used when
`item.id` is falsy. The built object has no `iteration` and no
`failureReason` property. -/
def validateItem (now : Nat) (uuid : String) (extraTags : List String)
    (item : RawItem) : Except String TestCase :=
  if strTruthy item.title then
    Except.ok
      { id := match item.id with
          | some s => if s != "" then s else uuid
          | none => uuid
        title := item.title.getD ""
        description := item.description.getD ""
        input := coerceText item.input
        expectedOutput := coerceText item.expectedOutput
        status := statusFrom item.status
        failureReason := none
        tags := setDedup (rawTags item.tags ++ extraTags)
        iteration := none
        createdAt := match item.createdAt with
          | some c => if c != 0 then c else now
          | none => now
        updatedAt := now }
  else Except.error missingTitleMsg

/-- The `array.map` of validateItem over a batch: the first thrown error
aborts the whole map, so no record list is produced. `uuid i` is the fresh
id generated for the item at index `i`. -/
def validateBatchAux (now : Nat) (uuid : Nat → String) (extraTags : List String) :
    Nat → List RawItem → Except String (List TestCase)
  | _, [] => Except.ok []
  | i, item :: rest =>
      match validateItem now (uuid i) extraTags item with
      | Except.error e => Except.error e
      | Except.ok tc =>
          match validateBatchAux now uuid extraTags (i + 1) rest with
          | Except.error e => Except.error e
          | Except.ok tcs => Except.ok (tc :: tcs)

/-- The whole-batch validation of handleImport, starting at index 0. -/
def validateBatch (now : Nat) (uuid : Nat → String) (extraTags : List String)
    (items : List RawItem) : Except String (List TestCase) :=
  validateBatchAux now uuid extraTags 0 items

/-- The persistence store of src/services/db.ts: the single IndexedDB table
of TestCase records keyed by `id`, as the list of its records. -/
abbrev Store := List TestCase

/-- The records `db.getAll(STORE_NAME)` returns (src/services/db.ts,
getAllTestCases). -/
def getAllTestCases (st : Store) : List TestCase :=
  st

/-- The upsert `db.put(STORE_NAME, testCase)` keyed by `id`
(src/services/db.ts, saveTestCase): replace the record holding this key if
one exists, insert otherwise. -/
def saveTestCase (st : Store) (tc : TestCase) : Store :=
  if st.any (fun x => x.id == tc.id) then
    st.map (fun x => if x.id == tc.id then tc else x)
  else st ++ [tc]

/-- The deletion `db.delete(STORE_NAME, id)` (src/services/db.ts,
deleteTestCase): removes the record with this key if present, otherwise
does nothing (IndexedDB delete never fails on a missing key). -/
def deleteTestCase (st : Store) (id : String) : Store :=
  st.filter (fun x => x.id != id)

/-- The bulk import transaction of src/services/db.ts
(bulkImportTestCases): one `store.put` per record, in order, in a single
transaction. -/
def bulkImportTestCases (st : Store) (tcs : List TestCase) : Store :=
  tcs.foldl saveTestCase st

/-- The `db.clear(STORE_NAME)` operation (src/services/db.ts,
clearAllTestCases). -/
def clearAllTestCases (_st : Store) : Store :=
  []

/-- The import controller handleImport acting on the store (parse already
done, so the batch is the item list): validation failure is caught, the
error is surfaced with the `Invalid JSON: ` prefix of the catch block and
the store is untouched; on success every validated record is bulk-put. -/
def handleImport (st : Store) (now : Nat) (uuid : Nat → String)
    (globalTags : String) (items : List RawItem) : Store × Option String :=
  match validateBatch now uuid (parseGlobalTags globalTags) items with
  | Except.error e => (st, some ("Invalid JSON: " ++ e))
  | Except.ok tcs => (bulkImportTestCases st tcs, none)

/-- The form state of TestForm (src/components/TestForm.tsx): every field
the submit handler spreads into the saved record. -/
structure FormData where
  title : String
  description : String
  input : String
  expectedOutput : String
  status : TestStatus
  failureReason : String
  tags : List String
  iteration : String
deriving DecidableEq, Repr

/-- The submit handler handleSubmit of src/components/TestForm.tsx: an
empty-after-trim title blocks the save (`none`); otherwise the record
keeps the initial id and createdAt when editing, generates them when
creating, stores the form fields as they stand except `iteration`, which
is trimmed (strTrim) and defaulted to `'Unassigned'` when empty, and stamps
`updatedAt` with the current time. -/
def handleSubmit (initialData : Option TestCase) (fd : FormData) (now : Nat)
    (newId : String) : Option TestCase :=
  if strTrim fd.title = "" then none
  else
    some
      { id := match initialData with
          | some d => d.id
          | none => newId
        title := fd.title
        description := fd.description
        input := fd.input
        expectedOutput := fd.expectedOutput
        status := fd.status
        failureReason := some fd.failureReason
        tags := fd.tags
        iteration := some (if strTrim fd.iteration = "" then "Unassigned"
          else strTrim fd.iteration)
        createdAt := match initialData with
          | some d => d.createdAt
          | none => now
        updatedAt := now }

/-- The ASCII model of `String.prototype.toLowerCase` applied character by
character (every string in the claims is ASCII). -/
def toLowerStr (s : String) : String :=
  s.map Char.toLower

/-- Whether the first list is an initial segment of the second. -/
def leadMatch : List Char → List Char → Bool
  | [], _ => true
  | _ :: _, [] => false
  | p :: ps, c :: cs => p == c && leadMatch ps cs

/-- Whether `needle` occurs contiguously somewhere in the list. -/
def hasSeg (needle : List Char) : List Char → Bool
  | [] => leadMatch needle []
  | c :: cs => leadMatch needle (c :: cs) || hasSeg needle cs

/-- The substring test `hay.includes(needle)` of JavaScript. -/
def strIncludes (hay needle : String) : Bool :=
  hasSeg needle.toList hay.toList

/-- The display label `tc.iteration || 'Unassigned'` used by the filter
layer of src/App.tsx: an absent or empty iteration reads as Unassigned. -/
def displayIteration : Option String → String
  | none => "Unassigned"
  | some s => if s = "" then "Unassigned" else s

/-- The per-record predicate of the `listFilteredCases` memo in src/App.tsx
(lines 186-203). `statusFilter` is `none` for the `'ALL'` sentinel of the
`TestStatus | 'ALL'` union; `iterationFilter` carries its `'ALL'` sentinel
as the literal string, as in the source. -/
def matchesFilters (searchQuery : String) (selectedTags : List String)
    (statusFilter : Option TestStatus) (iterationFilter : String)
    (tc : TestCase) : Bool :=
  let searchLower := toLowerStr searchQuery
  let matchesSearch := searchQuery == "" ||
    strIncludes (toLowerStr tc.title) searchLower ||
    strIncludes (toLowerStr tc.description) searchLower
  let caseTags := tc.tags
  let matchesTags := selectedTags.isEmpty ||
    selectedTags.all (fun t => caseTags.contains t)
  let matchesStatus := match statusFilter with
    | none => true
    | some s => tc.status == s
  let tcIteration := displayIteration tc.iteration
  let matchesIteration := iterationFilter == "ALL" || tcIteration == iterationFilter
  matchesSearch && matchesTags && matchesStatus && matchesIteration

/-- The filtered list view of src/App.tsx: `testCases.filter(...)` under the
current search query, selected tags, status filter and iteration filter. -/
def listFilteredCases (testCases : List TestCase) (searchQuery : String)
    (selectedTags : List String) (statusFilter : Option TestStatus)
    (iterationFilter : String) : List TestCase :=
  testCases.filter (matchesFilters searchQuery selectedTags statusFilter iterationFilter)

/-- The import item that parsing the exported JSON of record `r` yields:
`JSON.stringify(testCases, null, 2)` (the export textarea of
src/components/JsonManager.tsx, line 195-199) prints every property of the
record, and `JSON.parse` returns the same values, so the composition is the
identity on each field. The JSON text also carries `iteration`,
`failureReason` and `updatedAt`, but a `RawItem` holds only the properties
handleImport reads, and those three are not among them. -/
def exportThenParse (r : TestCase) : RawItem :=
  { id := some r.id
    title := some r.title
    description := some r.description
    input := some (JSValue.jstr r.input)
    expectedOutput := some (JSValue.jstr r.expectedOutput)
    status := some (statusToString r.status)
    tags := TagsField.array r.tags
    createdAt := some r.createdAt }

/-- A concrete stored record with an iteration and a failure reason, for
the round-trip counterexample of claim C1. -/
def recC1 : TestCase :=
  { id := "id-1"
    title := "Login works"
    description := "d"
    input := "in"
    expectedOutput := "out"
    status := TestStatus.FAILING
    failureReason := some "timeout"
    tags := ["auth"]
    iteration := some "v1.0"
    createdAt := 50
    updatedAt := 60 }

/-- What the import controller stores for `recC1` after a round trip: the
same record with `updatedAt` restamped and the `iteration` and
`failureReason` properties gone. -/
def recC1After : TestCase :=
  { recC1 with updatedAt := 100, iteration := none, failureReason := none }

/-- A minimal valid import item carrying only a title, for the witness of
claim C2. -/
def itemC2 (t : String) : RawItem :=
  { id := none, title := some t, description := none, input := none,
    expectedOutput := none, status := none, tags := TagsField.absent,
    createdAt := none }

/-- An import item lacking a title, for the witness of claim C2. -/
def itemC2bad : RawItem :=
  { id := none, title := none, description := none, input := none,
    expectedOutput := none, status := none, tags := TagsField.absent,
    createdAt := none }

/-- A five-item import batch whose third item lacks a title, for the
witness of claim C2. -/
def batchC2 : List RawItem :=
  [itemC2 "one", itemC2 "two", itemC2bad, itemC2 "four", itemC2 "five"]

/-- A one-record pre-import store for the witness of claim C2. -/
def storeC2 : Store :=
  [{ id := "pre", title := "kept", description := "", input := "",
     expectedOutput := "", status := TestStatus.DRAFT, failureReason := none,
     tags := [], iteration := some "v1.0", createdAt := 1, updatedAt := 1 }]

/-- An import item whose title is a single space, for the counterexample of
claim C4: truthy for the import check, empty after trim. -/
def itemC4 : RawItem :=
  { id := some "ws-1", title := some " ", description := none, input := none,
    expectedOutput := none, status := none, tags := TagsField.absent,
    createdAt := none }

/-- The record the import controller stores for `itemC4`. -/
def recC4 : TestCase :=
  { id := "ws-1", title := " ", description := "", input := "",
    expectedOutput := "", status := TestStatus.DRAFT, failureReason := none,
    tags := [], iteration := none, createdAt := 9, updatedAt := 9 }

/-- An import item supplying a `createdAt` later than the import time, for
the counterexample of claim C5. -/
def itemC5 : RawItem :=
  { id := some "fut-1", title := some "X", description := none, input := none,
    expectedOutput := none, status := none, tags := TagsField.absent,
    createdAt := some 5 }

/-- The record the import controller stores for `itemC5` at time 3. -/
def recC5 : TestCase :=
  { id := "fut-1", title := "X", description := "", input := "",
    expectedOutput := "", status := TestStatus.DRAFT, failureReason := none,
    tags := [], iteration := none, createdAt := 5, updatedAt := 3 }

/-- An existing stored record being edited, for the counterexample of
claim C6. -/
def recC6old : TestCase :=
  { id := "c6", title := "Checkout discount", description := "", input := "",
    expectedOutput := "", status := TestStatus.DRAFT, failureReason := some "",
    tags := [], iteration := some "v1.0", createdAt := 10, updatedAt := 10 }

/-- Edited form values whose iteration carries surrounding whitespace, for
the counterexample of claim C6. -/
def fdC6 : FormData :=
  { title := "Checkout discount", description := "", input := "",
    expectedOutput := "", status := TestStatus.PASSING, failureReason := "",
    tags := [], iteration := " v2.0 " }

/-- The record handleSubmit saves for `recC6old` edited to `fdC6` at
time 20. -/
def recC6new : TestCase :=
  { id := "c6", title := "Checkout discount", description := "", input := "",
    expectedOutput := "", status := TestStatus.PASSING, failureReason := some "",
    tags := [], iteration := some "v2.0", createdAt := 10, updatedAt := 20 }

/-- The import item `{title: "X", tags: ["a", "a", "b"]}` of the tag
de-duplication example, for the witness of claim C8. -/
def itemC8 : RawItem :=
  { id := some "t-1", title := some "X", description := none, input := none,
    expectedOutput := none, status := none,
    tags := TagsField.array ["a", "a", "b"], createdAt := none }

/-- A single-record store for the delete witness of claim C9. -/
def recC9 : TestCase :=
  { id := "keep-1", title := "stays", description := "", input := "",
    expectedOutput := "", status := TestStatus.DRAFT, failureReason := none,
    tags := [], iteration := none, createdAt := 1, updatedAt := 1 }

/-- A record for the save/list witness of claim C3. -/
def recC3 : TestCase :=
  { id := "same-id", title := "new version", description := "", input := "",
    expectedOutput := "", status := TestStatus.PASSING, failureReason := none,
    tags := [], iteration := none, createdAt := 2, updatedAt := 3 }

/-- The older stored record replaced in the witness of claim C3. -/
def recC3old : TestCase :=
  { id := "same-id", title := "old version", description := "", input := "",
    expectedOutput := "", status := TestStatus.DRAFT, failureReason := none,
    tags := [], iteration := none, createdAt := 2, updatedAt := 2 }

/-- A store already holding a record under the id of `recC3`, for the
witness of claim C3. -/
def storeC3 : Store :=
  [recC3old]

theorem strTruthy_eq_true {t : Option String} :
    strTruthy t = true ↔ ∃ s, t = some s ∧ s ≠ "" := by
  cases t <;> simp [strTruthy]

theorem validateItem_error_iff (now : Nat) (uuid : String)
    (extraTags : List String) (item : RawItem) (e : String) :
    validateItem now uuid extraTags item = Except.error e ↔
      strTruthy item.title = false ∧ e = missingTitleMsg := by
  unfold validateItem
  by_cases h : strTruthy item.title = true
  · rw [if_pos h]
    simp [h]
  · rw [if_neg h]
    simp only [Bool.not_eq_true] at h
    simp [h, eq_comm]

theorem validateBatchAux_error (now : Nat) (uuid : Nat → String)
    (extraTags : List String) (i : Nat) (items : List RawItem)
    (h : ∃ item ∈ items, strTruthy item.title = false) :
    validateBatchAux now uuid extraTags i items = Except.error missingTitleMsg := by
  induction items generalizing i with
  | nil => simp at h
  | cons item rest ih =>
    unfold validateBatchAux
    rcases h with ⟨bad, hmem, hbad⟩
    rcases List.mem_cons.mp hmem with rfl | hmem
    · rw [(validateItem_error_iff now (uuid i) extraTags bad missingTitleMsg).mpr
        ⟨hbad, rfl⟩]
    · cases hval : validateItem now (uuid i) extraTags item with
      | error e =>
        rcases (validateItem_error_iff now (uuid i) extraTags item e).mp hval
          with ⟨_, rfl⟩
        rfl
      | ok tc => rw [ih (i + 1) ⟨bad, hmem, hbad⟩]

/-- C2: an import batch in which at least one item lacks a title adds zero
records, surfaces the error naming the missing-title failure, and leaves
the store equal to its pre-import state: the whole `array.map` throws at
the first invalid item, the catch block reports the message, and the bulk
write is never reached. -/
theorem claimC2_import_aborts_on_missing_title (st : Store) (now : Nat)
    (uuid : Nat → String) (globalTags : String) (items : List RawItem)
    (h : ∃ item ∈ items, item.title = none) :
    handleImport st now uuid globalTags items =
      (st, some ("Invalid JSON: " ++ missingTitleMsg)) := by
  unfold handleImport validateBatch
  rw [validateBatchAux_error]
  rcases h with ⟨bad, hmem, hbad⟩
  exact ⟨bad, hmem, by rw [hbad]; rfl⟩

/-- Witness for C2: a concrete five-item batch whose third item lacks a
title, imported into a one-record store, changes nothing and reports the
missing-title error. -/
theorem claimC2_witness :
    handleImport storeC2 7 (fun _ => "u") "" batchC2 =
      (storeC2, some ("Invalid JSON: " ++ missingTitleMsg)) := by
  apply claimC2_import_aborts_on_missing_title
  exact ⟨itemC2bad, by simp [batchC2], rfl⟩

theorem filter_id_eq_nil (r : TestCase) (l : List TestCase)
    (h : ∀ y ∈ l, (y.id == r.id) = false) :
    l.filter (fun x => x.id == r.id) = [] := by
  induction l with
  | nil => rfl
  | cons a l ih =>
    have ha := h a (List.mem_cons_self a l)
    simp only [List.filter_cons, ha, Bool.false_eq_true, if_false]
    exact ih fun y hy => h y (List.mem_cons_of_mem a hy)

theorem filter_id_map_replace (r : TestCase) (l : List TestCase)
    (h : ∀ y ∈ l, (y.id == r.id) = false) :
    (l.map (fun x => if x.id == r.id then r else x)).filter
      (fun x => x.id == r.id) = [] := by
  induction l with
  | nil => rfl
  | cons a l ih =>
    have ha := h a (List.mem_cons_self a l)
    simp only [List.map_cons, ha, Bool.false_eq_true, if_false, List.filter_cons]
    exact ih fun y hy => h y (List.mem_cons_of_mem a hy)

theorem saveTestCase_filter (st : Store) (r : TestCase)
    (hnd : (st.map TestCase.id).Nodup) :
    (saveTestCase st r).filter (fun x => x.id == r.id) = [r] := by
  unfold saveTestCase
  by_cases hany : st.any (fun x => x.id == r.id) = true
  · rw [if_pos hany]
    induction st with
    | nil => simp at hany
    | cons a l ih =>
      rw [List.map_cons, List.nodup_cons] at hnd
      cases ha : a.id == r.id with
      | true =>
        have haid : a.id = r.id := by simpa using ha
        have hrest : ∀ y ∈ l, (y.id == r.id) = false := by
          intro y hy
          have : y.id ≠ r.id := fun hcontr =>
            hnd.1 (haid ▸ hcontr ▸ List.mem_map_of_mem TestCase.id hy)
          simpa using this
        simp only [List.map_cons, ha, if_true, List.filter_cons]
        rw [if_pos (by simp : (r.id == r.id) = true)]
        simp only [List.cons.injEq, true_and]
        exact filter_id_map_replace r l hrest
      | false =>
        have hany' : l.any (fun x => x.id == r.id) = true := by
          rcases List.any_eq_true.mp hany with ⟨x, hx, hxid⟩
          rcases List.mem_cons.mp hx with rfl | hx
          · rw [ha] at hxid; cases hxid
          · exact List.any_eq_true.mpr ⟨x, hx, hxid⟩
        simp only [List.map_cons, ha, Bool.false_eq_true, if_false, List.filter_cons]
        exact ih hnd.2 hany'
  · rw [if_neg hany]
    have hfalse : st.any (fun x => x.id == r.id) = false := by simpa using hany
    have hnone : ∀ y ∈ st, (y.id == r.id) = false := by
      intro y hy
      have := List.any_eq_false.mp hfalse y hy
      simpa using this
    rw [List.filter_append, filter_id_eq_nil r st hnone]
    simp

/-- C3: saving a record and then listing all records yields exactly one
record under that id, holding exactly the saved values, and a save to an
existing id replaces the record instead of adding one. The hypothesis that
the stored ids are pairwise distinct is the IndexedDB key invariant of the
object store keyed by `id`. -/
theorem claimC3_save_then_list_upsert (st : Store) (r : TestCase)
    (hnd : (st.map TestCase.id).Nodup) :
    (getAllTestCases (saveTestCase st r)).filter (fun x => x.id == r.id) = [r] ∧
    ((∃ x ∈ st, x.id = r.id) → (saveTestCase st r).length = st.length) := by
  refine ⟨saveTestCase_filter st r hnd, ?_⟩
  rintro ⟨x, hx, hxid⟩
  unfold saveTestCase
  rw [if_pos (List.any_eq_true.mpr ⟨x, hx, by simpa using hxid⟩)]
  exact List.length_map st _

/-- Witness for C3: saving `recC3` into a store already holding a DRAFT
record under the same id leaves exactly one record under that id, equal to
`recC3`, and does not grow the store. -/
theorem claimC3_witness :
    (getAllTestCases (saveTestCase storeC3 recC3)).filter
      (fun x => x.id == recC3.id) = [recC3] ∧
    (saveTestCase storeC3 recC3).length = storeC3.length := by
  have h := claimC3_save_then_list_upsert storeC3 recC3 (by decide)
  refine ⟨h.1, h.2 ?_⟩
  exact ⟨recC3old, by simp [storeC3], by decide⟩

/-- C9: after deleting an id, listing all records yields no record with
that id; deleting an id that is not present is a no-op (and, the delete
being a total function, never an error). -/
theorem claimC9_delete_then_list (st : Store) (id : String) :
    (∀ x ∈ getAllTestCases (deleteTestCase st id), x.id ≠ id) ∧
    ((∀ x ∈ st, x.id ≠ id) → deleteTestCase st id = st) := by
  constructor
  · intro x hx
    have := List.of_mem_filter hx
    simpa using this
  · intro h
    unfold deleteTestCase
    apply List.filter_eq_self.mpr
    intro a ha
    simpa using h a ha

/-- Witness for C9: deleting an absent id from a one-record store returns
the store unchanged, and the surviving record's id differs from the
deleted one. -/
theorem claimC9_witness :
    deleteTestCase [recC9] "missing-id" = [recC9] :=
  (claimC9_delete_then_list [recC9] "missing-id").2 (by decide)

theorem mem_setDedupAux (x : String) (seen l : List String) :
    x ∈ setDedupAux seen l ↔ x ∈ l ∧ x ∉ seen := by
  induction l generalizing seen with
  | nil => simp [setDedupAux]
  | cons a l ih =>
    unfold setDedupAux
    by_cases ha : a ∈ seen
    · rw [if_pos ha, ih]
      constructor
      · rintro ⟨hx, hs⟩
        exact ⟨List.mem_cons_of_mem a hx, hs⟩
      · rintro ⟨hx, hs⟩
        rcases List.mem_cons.mp hx with rfl | hx
        · exact absurd ha hs
        · exact ⟨hx, hs⟩
    · rw [if_neg ha]
      constructor
      · intro hx
        rcases List.mem_cons.mp hx with rfl | hx
        · exact ⟨List.mem_cons_self x l, ha⟩
        · rcases (ih (a :: seen)).mp hx with ⟨h1, h2⟩
          exact ⟨List.mem_cons_of_mem a h1,
            fun hs => h2 (List.mem_cons_of_mem a hs)⟩
      · rintro ⟨hx, hs⟩
        by_cases hxa : x = a
        · exact hxa ▸ List.mem_cons_self a _
        · rcases List.mem_cons.mp hx with rfl | hx
          · exact absurd rfl hxa
          · exact List.mem_cons_of_mem a ((ih (a :: seen)).mpr
              ⟨hx, fun hm => (List.mem_cons.mp hm).elim hxa hs⟩)

theorem nodup_setDedupAux (seen l : List String) :
    (setDedupAux seen l).Nodup := by
  induction l generalizing seen with
  | nil => exact List.nodup_nil
  | cons a l ih =>
    unfold setDedupAux
    by_cases ha : a ∈ seen
    · rw [if_pos ha]; exact ih seen
    · rw [if_neg ha]
      refine List.nodup_cons.mpr ⟨?_, ih (a :: seen)⟩
      intro hmem
      exact ((mem_setDedupAux a (a :: seen) l).mp hmem).2 (List.mem_cons_self a seen)

theorem setDedupAux_eq_self (seen l : List String)
    (h1 : ∀ x ∈ l, x ∉ seen) (h2 : l.Nodup) : setDedupAux seen l = l := by
  induction l generalizing seen with
  | nil => rfl
  | cons a l ih =>
    unfold setDedupAux
    rw [if_neg (h1 a (List.mem_cons_self a l))]
    rcases List.nodup_cons.mp h2 with ⟨hna, hnd⟩
    congr 1
    apply ih
    · intro x hx
      intro hmem
      rcases List.mem_cons.mp hmem with rfl | hmem
      · exact hna hx
      · exact h1 x (List.mem_cons_of_mem a hx) hmem
    · exact hnd

theorem mem_setDedup (x : String) (l : List String) :
    x ∈ setDedup l ↔ x ∈ l := by
  unfold setDedup
  rw [mem_setDedupAux]
  simp

theorem nodup_setDedup (l : List String) : (setDedup l).Nodup :=
  nodup_setDedupAux [] l

theorem setDedup_eq_self (l : List String) (h : l.Nodup) : setDedup l = l :=
  setDedupAux_eq_self [] l (by simp) h

/-- The record the import controller stores for `itemC8` (tags
`["a", "a", "b"]` with global tag `"b"`): de-duplicated union `["a", "b"]`. -/
def recC8 : TestCase :=
  { id := "t-1", title := "X", description := "", input := "",
    expectedOutput := "", status := TestStatus.DRAFT, failureReason := none,
    tags := ["a", "b"], iteration := none, createdAt := 7, updatedAt := 7 }

/-- C8: the tags an imported record stores are the duplicate-free union of
the item's tags (empty when the property is absent or not an array) with
the operator-supplied global tags. -/
theorem claimC8_tag_union (now : Nat) (uuid : String) (extraTags : List String)
    (item : RawItem) (tc : TestCase)
    (h : validateItem now uuid extraTags item = Except.ok tc) :
    tc.tags.Nodup ∧ ∀ t, t ∈ tc.tags ↔ (t ∈ rawTags item.tags ∨ t ∈ extraTags) := by
  unfold validateItem at h
  by_cases ht : strTruthy item.title = true
  · rw [if_pos ht] at h
    injection h with h
    subst h
    refine ⟨nodup_setDedup _, fun t => ?_⟩
    rw [mem_setDedup, List.mem_append]
  · rw [if_neg ht] at h
    cases h

/-- Witness for C8: importing `{title: "X", tags: ["a", "a", "b"]}` with
the global-tag text `"b"` stores exactly the duplicate-free tags
`["a", "b"]`. -/
theorem claimC8_witness :
    validateItem 7 "u" (parseGlobalTags "b") itemC8 = Except.ok recC8 ∧
    recC8.tags = ["a", "b"] ∧ recC8.tags.Nodup ∧
    ("a" ∈ recC8.tags ↔ ("a" ∈ rawTags itemC8.tags ∨ "a" ∈ parseGlobalTags "b")) :=
  ⟨rfl, rfl, (claimC8_tag_union 7 "u" (parseGlobalTags "b") itemC8 recC8 rfl).1,
    (claimC8_tag_union 7 "u" (parseGlobalTags "b") itemC8 recC8 rfl).2 "a"⟩

theorem statusFrom_statusToString (s : TestStatus) :
    statusFrom (some (statusToString s)) = s := by
  cases s <;> rfl

theorem validateItem_roundTrip (now : Nat) (uuid : String) (r : TestCase)
    (h1 : r.id ≠ "") (h2 : r.title ≠ "") (h3 : r.createdAt ≠ 0)
    (h4 : r.tags.Nodup) :
    validateItem now uuid (parseGlobalTags "") (exportThenParse r) =
      Except.ok { r with updatedAt := now, iteration := none, failureReason := none } := by
  obtain ⟨rid, rtitle, rdesc, rin, rout, rstat, rfail, rtags, riter, rca, rua⟩ := r
  simp only at h1 h2 h3 h4
  have hg : parseGlobalTags "" = [] := rfl
  unfold validateItem exportThenParse
  rw [if_pos (by simpa [strTruthy] using h2)]
  simp only [hg, List.append_nil]
  rw [show rawTags (TagsField.array rtags) = rtags from rfl,
    setDedup_eq_self rtags h4]
  simp [h1, h3, coerceText, typeofIsObject, statusFrom_statusToString]

/-- Counterexample for C1 as stated: for the concrete stored record
`recC1`, export followed by parse followed by import yields a record whose
`iteration` and `failureReason` differ from the original (both are
dropped), so the round trip is not the identity up to `updatedAt`. -/
theorem claimC1_counterexample :
    validateItem 100 "u" (parseGlobalTags "") (exportThenParse recC1) =
      Except.ok recC1After ∧
    recC1.iteration = some "v1.0" ∧ recC1After.iteration = none ∧
    recC1.failureReason = some "timeout" ∧ recC1After.failureReason = none ∧
    recC1After ≠ { recC1 with updatedAt := recC1After.updatedAt } :=
  ⟨rfl, rfl, rfl, rfl, rfl, by decide⟩

/-- C1 amended: for every well-formed stored record set (non-empty ids and
titles, non-zero creation times, duplicate-free tags — all invariants of
records the controllers produce), the export/parse/import round trip
succeeds and returns each record with `updatedAt` restamped to the import
time and the `iteration` and `failureReason` properties dropped; every
other field is preserved. -/
theorem claimC1_amended_roundtrip (now : Nat) (uuid : Nat → String)
    (S : List TestCase)
    (h : ∀ r ∈ S, r.id ≠ "" ∧ r.title ≠ "" ∧ r.createdAt ≠ 0 ∧ r.tags.Nodup) :
    validateBatch now uuid (parseGlobalTags "") (S.map exportThenParse) =
      Except.ok (S.map (fun r =>
        { r with updatedAt := now, iteration := none, failureReason := none })) := by
  unfold validateBatch
  suffices hgen : ∀ i, validateBatchAux now uuid (parseGlobalTags "") i
      (S.map exportThenParse) = Except.ok (S.map (fun r =>
        { r with updatedAt := now, iteration := none, failureReason := none }))
    from hgen 0
  induction S with
  | nil => intro i; rfl
  | cons r S ih =>
    intro i
    rcases h r (List.mem_cons_self r S) with ⟨h1, h2, h3, h4⟩
    unfold validateBatchAux
    rw [List.map_cons, List.map_cons]
    simp only
    rw [validateItem_roundTrip now (uuid i) r h1 h2 h3 h4,
      ih (fun x hx => h x (List.mem_cons_of_mem r hx)) (i + 1)]

/-- Witness for the amended C1: the concrete record `recC1` is well formed
and round-trips to itself with `updatedAt` restamped and `iteration` and
`failureReason` dropped. -/
theorem claimC1_witness :
    validateBatch 100 (fun _ => "u") (parseGlobalTags "") ([recC1].map exportThenParse) =
      Except.ok ([recC1].map (fun r =>
        { r with updatedAt := 100, iteration := none, failureReason := none })) := by
  apply claimC1_amended_roundtrip
  intro r hr
  rcases List.mem_singleton.mp hr with rfl
  exact ⟨by decide, by decide, by decide, by decide⟩

/-- An import item with an absent title, for the witness of the amended
claim C4. -/
def itemC4empty : RawItem :=
  { id := none, title := none, description := none, input := none,
    expectedOutput := none, status := none, tags := TagsField.absent,
    createdAt := none }

/-- Form data with a whitespace-only title, for the witness of the amended
claim C4. -/
def fdC4 : FormData :=
  { title := " ", description := "", input := "", expectedOutput := "",
    status := TestStatus.DRAFT, failureReason := "", tags := [],
    iteration := "" }

/-- Counterexample for C4 as stated: the import item `itemC4`, whose title
is the single-space string, passes the import controller's falsiness check
and is persisted, so a record whose title is empty after trimming reaches
the store through the import path. -/
theorem claimC4_counterexample :
    handleImport [] 9 (fun _ => "u") "" [itemC4] = ([recC4], none) ∧
    strTrim recC4.title = "" ∧ recC4.title = " " :=
  ⟨rfl, rfl, rfl⟩

/-- C4 amended: the form path rejects every title that is empty after
trimming (nothing is saved), while the import path rejects only a falsy
title — absent or the empty string — so whitespace-only titles pass
the validation of the import path. -/
theorem claimC4_amended_title_validation :
    (∀ initialData fd now newId, strTrim fd.title = "" →
      handleSubmit initialData fd now newId = none) ∧
    (∀ now uuid extraTags item, (item.title = none ∨ item.title = some "") →
      validateItem now uuid extraTags item = Except.error missingTitleMsg) := by
  constructor
  · intro initialData fd now newId h
    unfold handleSubmit
    rw [if_pos h]
  · intro now uuid extraTags item h
    unfold validateItem
    rw [if_neg ?_]
    rcases h with h | h <;> simp [strTruthy, h]

/-- Witness for the amended C4: a whitespace-only form title blocks the
form save, and an absent title makes the import throw the missing-title
error. -/
theorem claimC4_witness :
    handleSubmit none fdC4 0 "n" = none ∧
    validateItem 0 "u" [] itemC4empty = Except.error missingTitleMsg :=
  ⟨claimC4_amended_title_validation.1 none fdC4 0 "n" rfl,
    claimC4_amended_title_validation.2 0 "u" [] itemC4empty (Or.inl rfl)⟩

/-- Counterexample for C5 as stated: importing an item that supplies
`createdAt = 5` at current time 3 stores `createdAt = 5` and
`updatedAt = 3`, violating `updatedAt ≥ createdAt`. -/
theorem claimC5_counterexample :
    validateItem 3 "u" [] itemC5 = Except.ok recC5 ∧
    recC5.createdAt = 5 ∧ recC5.updatedAt = 3 ∧
    recC5.updatedAt < recC5.createdAt :=
  ⟨rfl, rfl, rfl, by decide⟩

/-- C5 amended: `updatedAt` is stamped with the current time on every save
through either controller; `createdAt` is the supplied value when truthy
and the current time otherwise; consequently `updatedAt ≥ createdAt` holds
whenever the supplied `createdAt` does not exceed the current time (always
for records the form creates), but an import supplying a future
`createdAt` stores `updatedAt < createdAt`. -/
theorem claimC5_amended_timestamps :
    (∀ initialData fd now newId tc,
      handleSubmit initialData fd now newId = some tc →
      tc.updatedAt = now ∧
      (initialData = none → tc.createdAt = now ∧ tc.createdAt ≤ tc.updatedAt) ∧
      (∀ d, initialData = some d → tc.createdAt = d.createdAt ∧
        (d.createdAt ≤ now → tc.createdAt ≤ tc.updatedAt))) ∧
    (∀ now uuid extraTags item tc,
      validateItem now uuid extraTags item = Except.ok tc →
      tc.updatedAt = now ∧
      ((∀ c, item.createdAt = some c → c ≤ now) → tc.createdAt ≤ tc.updatedAt)) := by
  constructor
  · intro initialData fd now newId tc h
    unfold handleSubmit at h
    by_cases ht : strTrim fd.title = ""
    · rw [if_pos ht] at h; cases h
    · rw [if_neg ht] at h
      injection h with h
      subst h
      refine ⟨rfl, ?_, ?_⟩
      · rintro rfl
        exact ⟨rfl, le_refl now⟩
      · rintro d rfl
        exact ⟨rfl, fun hle => hle⟩
  · intro now uuid extraTags item tc h
    unfold validateItem at h
    by_cases ht : strTruthy item.title = true
    · rw [if_pos ht] at h
      injection h with h
      subst h
      refine ⟨rfl, fun hc => ?_⟩
      simp only
      cases hca : item.createdAt with
      | none => exact le_refl now
      | some c =>
        show (if (c != 0) = true then c else now) ≤ now
        by_cases hc0 : (c != 0) = true
        · rw [if_pos hc0]
          exact hc c hca
        · rw [if_neg hc0]
    · rw [if_neg ht] at h; cases h

/-- Form data for the witness of the amended claim C5. -/
def fdC5 : FormData :=
  { title := "New case", description := "", input := "", expectedOutput := "",
    status := TestStatus.DRAFT, failureReason := "", tags := [],
    iteration := "" }

/-- The record handleSubmit creates from `fdC5` at time 11. -/
def recC5w : TestCase :=
  { id := "w5", title := "New case", description := "", input := "",
    expectedOutput := "", status := TestStatus.DRAFT, failureReason := some "",
    tags := [], iteration := some "Unassigned", createdAt := 11,
    updatedAt := 11 }

/-- Witness for the amended C5: a form-created record at time 11 carries
`createdAt = updatedAt = 11`, and the imported record `recC8` (whose item
supplies no `createdAt`) satisfies `updatedAt ≥ createdAt`. -/
theorem claimC5_witness :
    handleSubmit none fdC5 11 "w5" = some recC5w ∧
    recC5w.updatedAt = 11 ∧ recC5w.createdAt = 11 ∧
    recC5w.createdAt ≤ recC5w.updatedAt ∧
    recC8.createdAt ≤ recC8.updatedAt := by
  have h1 := claimC5_amended_timestamps.1 none fdC5 11 "w5" recC5w rfl
  have h2 := claimC5_amended_timestamps.2 7 "u" (parseGlobalTags "b") itemC8 recC8 rfl
  exact ⟨rfl, h1.1, (h1.2.1 rfl).1, (h1.2.1 rfl).2,
    h2.2 (fun c hc => by rw [show itemC8.createdAt = none from rfl] at hc; cases hc)⟩

/-- Counterexample for C6 as stated: editing `recC6old` with the form
values `fdC6`, whose iteration text is `" v2.0 "`, stores iteration
`"v2.0"` — the stored field does not equal the edited form value (it is
trimmed), so not all fields other than id, createdAt and updatedAt equal
the form values. -/
theorem claimC6_counterexample :
    handleSubmit (some recC6old) fdC6 20 "n" = some recC6new ∧
    fdC6.iteration = " v2.0 " ∧ recC6new.iteration = some "v2.0" ∧
    recC6new.iteration ≠ some fdC6.iteration :=
  ⟨rfl, rfl, rfl, by decide⟩

/-- C6 amended: re-saving an existing record through the form keeps the
original id and createdAt, stamps updatedAt with the current time, and
stores the edited form values for every field except iteration, which is
stored trimmed, with an empty-after-trim value normalized to
`"Unassigned"`. -/
theorem claimC6_amended_edit_frame (d : TestCase) (fd : FormData) (now : Nat)
    (newId : String) (h : strTrim fd.title ≠ "") :
    handleSubmit (some d) fd now newId = some
      { id := d.id, title := fd.title, description := fd.description,
        input := fd.input, expectedOutput := fd.expectedOutput,
        status := fd.status, failureReason := some fd.failureReason,
        tags := fd.tags,
        iteration := some (if strTrim fd.iteration = "" then "Unassigned"
          else strTrim fd.iteration),
        createdAt := d.createdAt, updatedAt := now } := by
  unfold handleSubmit
  rw [if_neg h]

/-- Witness for the amended C6: editing `recC6old` to `fdC6` at time 20
yields exactly `recC6new` — original id and createdAt, fresh updatedAt,
form fields otherwise, iteration trimmed. -/
theorem claimC6_witness :
    handleSubmit (some recC6old) fdC6 20 "n" = some
      { id := recC6old.id, title := fdC6.title, description := fdC6.description,
        input := fdC6.input, expectedOutput := fdC6.expectedOutput,
        status := fdC6.status, failureReason := some fdC6.failureReason,
        tags := fdC6.tags,
        iteration := some (if strTrim fdC6.iteration = "" then "Unassigned"
          else strTrim fdC6.iteration),
        createdAt := recC6old.createdAt, updatedAt := 20 } :=
  claimC6_amended_edit_frame recC6old fdC6 20 "n" (by decide)

/-- C10: an import item whose `input` or `expectedOutput` is JSON null, an
array, or any other non-string object (everything with
`typeof === 'object'`) is stored as its pretty-printed JSON serialization;
in particular a null input is stored as the four-character text "null",
not as the empty-string default reserved for absent fields. -/
theorem claimC10_object_inputs_serialized :
    (∀ v, typeofIsObject v = true → coerceText (some v) = jsonText 0 v) ∧
    coerceText (some JSValue.jnull) = "null" ∧
    ("null").length = 4 ∧ coerceText none = "" := by
  refine ⟨?_, ?_, rfl, rfl⟩
  · intro v h
    simp only [coerceText]
    rw [if_pos h]
  · simp [coerceText, typeofIsObject, jsonText]

/-- Witness for C10: a concrete array input is stored as its two-space
indented JSON text. -/
theorem claimC10_witness :
    coerceText (some (JSValue.jarr [JSValue.jnum 1])) =
      jsonText 0 (JSValue.jarr [JSValue.jnum 1]) ∧
    jsonText 0 (JSValue.jarr [JSValue.jnum 1]) = "[\n  1\n]" :=
  ⟨claimC10_object_inputs_serialized.1 (JSValue.jarr [JSValue.jnum 1]) rfl,
    by simp [jsonText, jsonItems, indentStr]; rfl⟩

theorem leadMatch_iff (p s : List Char) :
    leadMatch p s = true ↔ ∃ r, s = p ++ r := by
  induction p generalizing s with
  | nil => simp [leadMatch]
  | cons a p ih =>
    cases s with
    | nil => simp [leadMatch]
    | cons c cs =>
      simp only [leadMatch, Bool.and_eq_true, beq_iff_eq, ih, List.cons_append,
        List.cons.injEq]
      constructor
      · rintro ⟨rfl, r, rfl⟩
        exact ⟨r, rfl, rfl⟩
      · rintro ⟨r, rfl, rfl⟩
        exact ⟨rfl, r, rfl⟩

theorem hasSeg_iff (needle s : List Char) :
    hasSeg needle s = true ↔ ∃ l r, s = l ++ needle ++ r := by
  induction s with
  | nil =>
    simp only [hasSeg, leadMatch_iff]
    constructor
    · rintro ⟨r, hr⟩
      rcases List.append_eq_nil.mp hr.symm with ⟨h1, h2⟩
      exact ⟨[], [], by simp [h1, h2]⟩
    · rintro ⟨l, r, hlr⟩
      rcases List.append_eq_nil.mp hlr.symm with ⟨h1, h2⟩
      rcases List.append_eq_nil.mp h1 with ⟨h3, h4⟩
      exact ⟨[], by simp [h4]⟩
  | cons c cs ih =>
    simp only [hasSeg, Bool.or_eq_true, leadMatch_iff, ih]
    constructor
    · rintro (⟨r, hr⟩ | ⟨l, r, hlr⟩)
      · exact ⟨[], r, by simpa using hr⟩
      · exact ⟨c :: l, r, by simp [hlr]⟩
    · rintro ⟨l, r, hlr⟩
      cases l with
      | nil => exact Or.inl ⟨r, by simpa using hlr⟩
      | cons a l' =>
        injection hlr with h1 h2
        exact Or.inr ⟨l', r, h2⟩

theorem strIncludes_iff (hay needle : String) :
    strIncludes hay needle = true ↔
      ∃ l r, hay.toList = l ++ needle.toList ++ r :=
  hasSeg_iff needle.toList hay.toList

theorem matchesTags_iff (selectedTags tags : List String) :
    (selectedTags.isEmpty || selectedTags.all (fun t => tags.contains t)) = true ↔
      ∀ t ∈ selectedTags, t ∈ tags := by
  simp only [Bool.or_eq_true, List.isEmpty_iff, List.all_eq_true]
  constructor
  · rintro (rfl | h)
    · intro t ht
      cases ht
    · intro t ht
      simpa using h t ht
  · intro h
    right
    intro t ht
    simpa using h t ht

theorem matchesStatus_iff (statusFilter : Option TestStatus) (st : TestStatus) :
    (match statusFilter with
      | none => true
      | some s => st == s) = true ↔
      (statusFilter = none ∨ statusFilter = some st) := by
  cases statusFilter with
  | none => simp
  | some s =>
    simp only [beq_iff_eq, Option.some.injEq, reduceCtorEq, false_or]
    exact eq_comm

theorem matchesIteration_iff (iterationFilter : String)
    (iter : Option String) :
    (iterationFilter == "ALL" || displayIteration iter == iterationFilter) = true ↔
      (iterationFilter = "ALL" ∨
        (∃ s, iter = some s ∧ s ≠ "" ∧ iterationFilter = s) ∨
        ((iter = none ∨ iter = some "") ∧ iterationFilter = "Unassigned")) := by
  cases iter with
  | none =>
    simp only [displayIteration, Bool.or_eq_true, beq_iff_eq]
    aesop
  | some s =>
    by_cases hs : s = ""
    · subst hs
      simp only [displayIteration, if_pos rfl, Bool.or_eq_true, beq_iff_eq]
      aesop
    · simp only [displayIteration, if_neg hs, Bool.or_eq_true, beq_iff_eq]
      aesop

/-- C7: the list view contains exactly the records that pass every active
filter: case-insensitive substring match of the search query against title
or description (empty query matches everything), every selected tag
present on the record, status equal to the filter unless it is ALL, and
iteration equal to the filter unless it is ALL, an absent or empty
iteration reading as "Unassigned". -/
theorem claimC7_filter_characterization (testCases : List TestCase)
    (q : String) (selectedTags : List String)
    (statusFilter : Option TestStatus) (iterationFilter : String)
    (tc : TestCase) :
    tc ∈ listFilteredCases testCases q selectedTags statusFilter iterationFilter ↔
      tc ∈ testCases ∧
      (q = "" ∨
        (∃ l r, (toLowerStr tc.title).toList =
          l ++ (toLowerStr q).toList ++ r) ∨
        (∃ l r, (toLowerStr tc.description).toList =
          l ++ (toLowerStr q).toList ++ r)) ∧
      (∀ t ∈ selectedTags, t ∈ tc.tags) ∧
      (statusFilter = none ∨ statusFilter = some tc.status) ∧
      (iterationFilter = "ALL" ∨
        (∃ s, tc.iteration = some s ∧ s ≠ "" ∧ iterationFilter = s) ∨
        ((tc.iteration = none ∨ tc.iteration = some "") ∧
          iterationFilter = "Unassigned")) := by
  unfold listFilteredCases
  rw [List.mem_filter]
  constructor
  · rintro ⟨hmem, hmatch⟩
    unfold matchesFilters at hmatch
    simp only [Bool.and_eq_true] at hmatch
    rcases hmatch with ⟨⟨⟨hsearch, htags⟩, hstatus⟩, hiter⟩
    refine ⟨hmem, ?_, (matchesTags_iff selectedTags tc.tags).mp htags,
      (matchesStatus_iff statusFilter tc.status).mp hstatus,
      (matchesIteration_iff iterationFilter tc.iteration).mp hiter⟩
    rcases Bool.or_eq_true _ _ |>.mp hsearch with h | h
    · rcases Bool.or_eq_true _ _ |>.mp h with h | h
      · exact Or.inl (by simpa using h)
      · exact Or.inr (Or.inl ((strIncludes_iff _ _).mp h))
    · exact Or.inr (Or.inr ((strIncludes_iff _ _).mp h))
  · rintro ⟨hmem, hsearch, htags, hstatus, hiter⟩
    refine ⟨hmem, ?_⟩
    unfold matchesFilters
    simp only [Bool.and_eq_true]
    refine ⟨⟨⟨?_, (matchesTags_iff selectedTags tc.tags).mpr htags⟩,
      (matchesStatus_iff statusFilter tc.status).mpr hstatus⟩,
      (matchesIteration_iff iterationFilter tc.iteration).mpr hiter⟩
    apply (Bool.or_eq_true _ _).mpr
    rcases hsearch with h | h | h
    · exact Or.inl ((Bool.or_eq_true _ _).mpr (Or.inl (by simpa using h)))
    · exact Or.inl ((Bool.or_eq_true _ _).mpr
        (Or.inr ((strIncludes_iff _ _).mpr h)))
    · exact Or.inr ((strIncludes_iff _ _).mpr h)
